import Mathlib

/-!
Verification development for the procmon process supervisor
(src/src/procmon.c).  The definitions below are a shallow embedding of
the C functions; each keeps the name of the C function it embeds.
Machine integers are modelled as Nat/Int; the process table is a
List Process indexed by position (mirroring the ProcessNode linked
list); effects on the environment (thread creation, sleeps, forks,
lockfile probes) are recorded as explicit event lists or counters.
-/

namespace Procmon

/-- errno constant EOK as defined in procmon.c (line 292). -/
def EOK : Int := 0

/-- errno constant EAGAIN (value irrelevant, only distinctness matters). -/
def EAGAIN : Int := 11

/-- errno constant EINVAL. -/
def EINVAL : Int := 22

/-- errno constant ESRCH: no such process. -/
def ESRCH : Nat := 3

/-- errno constant ENOENT: no such file. -/
def ENOENT : Int := 2

/-- sentinel control word SUSPEND = 0xDEADBEEF written into the lockfile
terminate field by the terminate (-k) command. -/
def SUSPEND : Nat := 0xDEADBEEF

/-- sentinel control word ABORT = 0xDEAFBABE written into the lockfile
terminate field by the terminate-and-delete (-d) command. -/
def ABORT : Nat := 0xDEAFBABE

/-- the ProcState enumeration from procmon.c. -/
inductive ProcState where
  | eINIT
  | eSTARTED
  | eRUNNING
  | eTERMINATED
  | eWAITING
deriving DecidableEq, Repr

open ProcState

/-- the Process structure from procmon.c, restricted to the fields the
verified functions touch.  parents and children hold indices into the
process table (the C code holds pointers chained in ProcessNode lists).
threads is instrumentation: it counts the monitor threads created for
this process by pthread_create in InitProcess (the C code keeps only the
last pthread_t handle, silently overwriting prior ones). -/
structure Process where
  state : ProcState
  wait : Nat
  restart_delay : Nat
  restart_on_parent_death : Bool
  monitored : Bool
  skip : Bool
  runcount : Nat
  threads : Nat
  parents : List Nat
  children : List Nat
deriving DecidableEq, Repr

/-- events produced by the start engine (Run / InitProcess / WaitProcess). -/
inductive REvent where
  | rThread
  | rWaitSleep : Nat → REvent
deriving DecidableEq, Repr

/-- one iteration of the GetParentRuncount loop, procmon.c lines
1789-1801: take the parent runcount when it exceeds the accumulator,
skipping null parents. -/
def RuncountStep (tbl : List Process) (rc : Nat) (i : Nat) : Nat :=
  match tbl[i]? with
  | some par => if par.runcount > rc then par.runcount else rc
  | none => rc

/-- GetParentRuncount from procmon.c lines 1780-1805: the largest runcount
over all non-null parents, 0 when there are none. -/
def GetParentRuncount (tbl : List Process) (p : Process) : Nat :=
  p.parents.foldl (RuncountStep tbl) 0

/-- the parent-scanning loop of Runnable, procmon.c lines 1303-1315:
returns EAGAIN at the first non-null parent whose state is not RUNNING,
EOK when the list is exhausted. -/
def RunnableCheck (tbl : List Process) : List Nat → Int
  | [] => EOK
  | i :: rest =>
      match tbl[i]? with
      | some par =>
          if par.state ≠ eRUNNING then EAGAIN else RunnableCheck tbl rest
      | none => RunnableCheck tbl rest

/-- Runnable from procmon.c lines 1292-1319 (non-null process case):
EOK iff every non-null parent is in state RUNNING.  Note that the code
performs no check of the process own state or launch status. -/
def Runnable (tbl : List Process) (p : Process) : Int :=
  RunnableCheck tbl p.parents

/-- InitProcess from procmon.c lines 1416-1439 (non-null process case,
pthread_create succeeding): spawns a MonitorThread for the process and
sets its state to STARTED.  The threads counter records the creation. -/
def InitProcess (p : Process) : Process × List REvent :=
  ({ p with state := eSTARTED, threads := p.threads + 1 }, [REvent.rThread])

/-- WaitProcess from procmon.c lines 1376-1396: when the process has a
positive wait, its lockfile pid probe returns 0, and it is monitored or
its runcount is below the largest parent runcount, set state WAITING and
sleep wait seconds.  probe stands for the get_pid_from_lockfile result. -/
def WaitProcess (tbl : List Process) (probe : Int) (p : Process) :
    Process × List REvent :=
  if 0 < p.wait then
    if probe = 0 then
      if p.monitored = true ∨ p.runcount < GetParentRuncount tbl p then
        ({ p with state := eWAITING }, [REvent.rWaitSleep p.wait])
      else (p, [])
    else (p, [])
  else (p, [])

/-- Run from procmon.c lines 1338-1356 (non-null process case): when skip
is false, InitProcess then WaitProcess; in every case the state is then
set to RUNNING. -/
def Run (tbl : List Process) (probe : Int) (p : Process) :
    Process × List REvent :=
  if p.skip = false then
    let r1 := InitProcess p
    let r2 := WaitProcess tbl probe r1.1
    ({ r2.1 with state := eRUNNING }, r1.2 ++ r2.2)
  else ({ p with state := eRUNNING }, [])

/-- one sweep of the RunProcesses loop body, procmon.c lines 1251-1266:
walk the table in list order; Run every process whose Runnable check
yields EOK, clear the running flag at every process whose check fails.
Returns the updated table and the final running flag. -/
def sweep (probe : Nat → Int) (tbl : List Process) : List Process × Bool :=
  (List.range tbl.length).foldl
    (fun acc i =>
      match acc.1[i]? with
      | some p =>
          if Runnable acc.1 p = EOK then
            (acc.1.set i (Run acc.1 (probe i) p).1, acc.2)
          else (acc.1, false)
      | none => acc)
    (tbl, true)

/-- RunProcesses from procmon.c lines 1240-1271 (non-null state case),
with explicit fuel bounding the number of sweeps (the C loop repeats
until a sweep leaves the running flag true). -/
def RunProcesses (probe : Nat → Int) : Nat → List Process → List Process
  | 0, tbl => tbl
  | Nat.succ fuel, tbl =>
      let r := sweep probe tbl
      if r.2 then r.1 else RunProcesses probe fuel r.1

/-- default process descriptor used to build concrete configurations. -/
def defProc : Process :=
  { state := eINIT, wait := 0, restart_delay := 0,
    restart_on_parent_death := false, monitored := true, skip := false,
    runcount := 0, threads := 0, parents := [], children := [] }

/-- concrete two-process configuration: index 0 is a process depending on
the process at index 1, declared first in the table; both monitored. -/
def demoTbl : List Process :=
  [ { defProc with parents := [1] }, defProc ]

/-- the table after the first sweep of the start engine on demoTbl. -/
def demoMid : List Process := (sweep (fun _ => 0) demoTbl).1

/-- the lockfile record (LockData structure from procmon.c lines 86-100):
pid is a signed pid_t, terminate an unsigned 32-bit control word,
runcount a size_t, starttime a time_t. -/
structure LockData where
  pid : Int
  terminate : Nat
  runcount : Nat
  starttime : Nat
deriving DecidableEq, Repr

/-- result of the zero-signal probe kill(pid, 0): ok when the call
succeeds, err e when it fails with errno e. -/
inductive KillRes where
  | ok
  | err : Nat → KillRes
deriving DecidableEq, Repr

/-- get_pid_from_lockfile from procmon.c lines 2217-2262, for a name
whose lockfile exists and whose record ld was read successfully.  kill0
models the zero-signal liveness probe.  Returned encoding, as consumed
by MonitorThread: -1 suspended, -2 aborted, 0 absent, positive pid
running. -/
def get_pid_from_lockfile (ld : LockData) (kill0 : Int → KillRes) : Int :=
  let pid : Int := ld.pid
  let pid := if ld.terminate = SUSPEND then -1 else pid
  let pid := if ld.terminate = ABORT then -2 else pid
  if 0 < pid then
    match kill0 pid with
    | KillRes.err e => if e = ESRCH then 0 else pid
    | KillRes.ok => pid
  else pid

/-- events produced by the open_lockfile retry loop: an open attempt
(numbered from 0) or a 100 ms usleep after a failed attempt. -/
inductive OEvent where
  | oOpen : Nat → OEvent
  | oSleep100
deriving DecidableEq, Repr

/-- the retry loop of open_lockfile, procmon.c lines 2181-2189: the
while condition admits at most 5 iterations (first argument counts the
remaining ones); openf gives the outcome of each numbered open attempt
(some fd on success, none on failure); after every failed attempt the
code sleeps 100 ms.  Returns the final fd and the event trace. -/
def open_loop (openf : Nat → Option Nat) : Nat → Nat → Option Nat × List OEvent
  | 0, _ => (none, [])
  | Nat.succ n, tries =>
      match openf tries with
      | some fd => (some fd, [OEvent.oOpen tries])
      | none =>
          let r := open_loop openf n (tries + 1)
          (r.1, OEvent.oOpen tries :: OEvent.oSleep100 :: r.2)

/-- open_lockfile from procmon.c lines 2170-2194 (non-null name case):
try the open up to 5 times starting at attempt 0; none models the -1
not-found return. -/
def open_lockfile (openf : Nat → Option Nat) : Option Nat × List OEvent :=
  open_loop openf 5 0

/-- count of open attempts in an open_lockfile event trace. -/
def countOpens (evs : List OEvent) : Nat :=
  evs.countP (fun e => match e with | OEvent.oOpen _ => true | _ => false)

/-- observable system state for one named process, as the CLI control
plane sees it: the lockfile record when the file exists, and whether the
process whose pid is stored in the record is alive. -/
structure KState where
  file : Option LockData
  alive : Bool
deriving DecidableEq, Repr

/-- terminate_command from procmon.c lines 2477-2538, for one named
process: when the lockfile cannot be opened, return errno (ENOENT); else
read the record, write cmd into its terminate field, rewrite starttime
to now (ResetStartTime), and send SIGKILL to the stored pid.  kill on a
live process succeeds (EOK) and leaves it dead; on a dead process it
fails with ESRCH.  Returns the new state and the result code. -/
def terminate_command (cmd : Nat) (now : Nat) (s : KState) : KState × Int :=
  match s.file with
  | none => (s, ENOENT)
  | some ld =>
      let ld2 := { ld with terminate := cmd, starttime := now }
      let rc : Int := if s.alive then EOK else (ESRCH : Nat)
      (⟨some ld2, false⟩, rc)

/-- terminate from procmon.c lines 2441-2444: terminate_command with the
SUSPEND control word (the -k operation). -/
def terminate (now : Nat) (s : KState) : KState × Int :=
  terminate_command SUSPEND now s

/-- the observables the terminate post-state is judged by: the terminate
field of the lockfile record (when present) and process liveness. -/
def termObs (s : KState) : Option Nat × Bool :=
  (s.file.map (fun l => l.terminate), s.alive)

/-- events produced by ShutdownAllProcesses: issuing terminate-and-delete
(terminate_and_stop_monitoring, the ABORT control word) to a name,
unlinking a lockfile (remove_lockfile), or sleeping.  Names are modelled
as character lists. -/
inductive SEvent where
  | sAbort : List Char → SEvent
  | sRemove : List Char → SEvent
  | sSleep : Nat → SEvent
deriving DecidableEq, Repr

/-- the test strncmp(a, b, n) == 0 on NUL-free character lists: the
first n characters agree, a string end counting as agreement only when
both end together. -/
def strncmpEq : List Char → List Char → Nat → Bool
  | _, _, 0 => true
  | c :: cs, d :: ds, Nat.succ n => if c = d then strncmpEq cs ds n else false
  | [], [], Nat.succ _ => true
  | _, _, Nat.succ _ => false

/-- ShutdownAllProcesses from procmon.c lines 2913-2977 (non-null state,
directory readable, every terminate succeeding): for each directory
entry matching strncmp(entry, procmon-dot, 8) == 0, take the suffix
after the first 8 characters; when strncmp(suffix, procmon, 7) is
nonzero, issue terminate-and-delete to the suffix.  Then sleep 1 s,
issue terminate-and-delete twice with the literal name procmon1 (lines
2965-2966), sleep 1 s, and unlink the procmon1 and procmon2 lockfiles.
Returns the event trace. -/
def ShutdownAllProcesses (dirEntries : List (List Char)) : List SEvent :=
  (dirEntries.filterMap
    (fun e =>
      if strncmpEq e ("procmon.".toList) 8 then
        let name := e.drop 8
        if strncmpEq name ("procmon".toList) 7 then none
        else some (SEvent.sAbort name)
      else none))
  ++ [SEvent.sSleep 1,
      SEvent.sAbort ("procmon1".toList), SEvent.sAbort ("procmon1".toList),
      SEvent.sSleep 1,
      SEvent.sRemove ("procmon1".toList), SEvent.sRemove ("procmon2".toList)]

/-- events produced by a MonitorThread. -/
inductive MEvent where
  | mPoll : Int → MEvent
  | mRemoveLock
  | mSleep : Nat → MEvent
  | mFork
  | mUsleep : Nat → MEvent
  | mExec
  | mRestartDeps
  | mMonitor
  | mWaitpid
deriving DecidableEq, Repr

/-- the while loop of MonitorThread, procmon.c lines 1555-1652, with
fuel bounding the number of iterations.  poll gives the successive
get_pid_from_lockfile results, forkRes the successive fork returns in
this thread.  Each iteration: poll (mPoll); -2 remove the lockfile and
stop; -1 sleep 1 s and loop; 0 increment runcount (not observable here),
sleep restart_delay when nonzero, fork; a fork return of 0 is the child
path, which execs and leaves the loop; else the parent path: when
monitored, restart dependents, usleep 500 ms, Monitor, waitpid, loop;
when not monitored, waitpid, restart dependents, stop. -/
def MonitorLoop (p : Process) (poll forkRes : Nat → Int) :
    Nat → Nat → List MEvent
  | 0, _ => []
  | Nat.succ fuel, k =>
      let pid := poll k
      if pid = -2 then [MEvent.mPoll pid, MEvent.mRemoveLock]
      else if pid = -1 then
        MEvent.mPoll pid :: MEvent.mSleep 1 :: MonitorLoop p poll forkRes fuel (k + 1)
      else
        let ds : List MEvent :=
          if pid = 0 ∧ p.restart_delay ≠ 0 then [MEvent.mSleep p.restart_delay] else []
        let fe : List MEvent := if pid = 0 then [MEvent.mFork] else []
        let pid2 := if pid = 0 then forkRes k else pid
        if pid2 = 0 then MEvent.mPoll pid :: (ds ++ fe ++ [MEvent.mExec])
        else if p.monitored then
          MEvent.mPoll pid ::
            (ds ++ fe ++ [MEvent.mRestartDeps, MEvent.mUsleep 500000,
                          MEvent.mMonitor, MEvent.mWaitpid])
            ++ MonitorLoop p poll forkRes fuel (k + 1)
        else
          MEvent.mPoll pid :: (ds ++ fe ++ [MEvent.mWaitpid, MEvent.mRestartDeps])

/-- MonitorThread from procmon.c lines 1540-1656 (non-null process
case), as its event trace: when the process is not monitored and its
runcount is at least the largest parent runcount, the run flag is
cleared before the loop and the thread returns at once with no events;
otherwise the loop runs. -/
def MonitorThreadEvents (tbl : List Process) (p : Process)
    (poll forkRes : Nat → Int) (fuel : Nat) : List MEvent :=
  if p.monitored = false ∧ GetParentRuncount tbl p ≤ p.runcount then []
  else MonitorLoop p poll forkRes fuel 0

/-- RestartDependent from procmon.c lines 1734-1763 (non-null process
case): when the child has restart_on_parent_death set, skip clear, and
state other than INIT, set its restart_delay to the parent wait and
restart it: through the control plane (restartRc models the restart
result) when monitored, through InitProcess otherwise.  Returns the
updated child and the result code. -/
def RestartDependent (c : Process) (wait : Nat) (restartRc : Int) :
    Process × Int :=
  if c.restart_on_parent_death = true ∧ c.skip = false ∧ c.state ≠ eINIT then
    let c := { c with restart_delay := wait }
    if c.monitored then (c, restartRc)
    else ((InitProcess c).1, EOK)
  else (c, EOK)

/-- one iteration of the RestartDependents loop, procmon.c lines
1693-1702: restart the child at index ci and, when the returned code rc
differs from EOK, set the overall result to EOK (line 1698); a null
child node likewise yields rc = EINVAL and hence result EOK. -/
def RestartStep (wait : Nat) (restartRc : Nat → Int)
    (acc : List Process × Int) (ci : Nat) : List Process × Int :=
  match acc.1[ci]? with
  | some c =>
      let r := RestartDependent c wait (restartRc ci)
      let res := if r.2 ≠ EOK then EOK else acc.2
      (acc.1.set ci r.1, res)
  | none => (acc.1, EOK)

/-- RestartDependents from procmon.c lines 1680-1706: none models the
C null-pointer argument (EINVAL); for a non-null process, walk its
children with RestartStep — the result variable starts at EOK and is
never set to anything else. -/
def RestartDependents (tbl : List Process) (restartRc : Nat → Int)
    (p : Option Process) : List Process × Int :=
  match p with
  | none => (tbl, EINVAL)
  | some proc =>
      proc.children.foldl (RestartStep proc.wait restartRc) (tbl, EOK)

/-- left-unit-padded two-digit rendering of the %02d conversion for
arguments below 100 (all padded fields in GetProcessTime are minute,
second, or hour counts below 60 or 24). -/
def pad2 (n : Nat) : String :=
  if n < 10 then "0" ++ toString n else toString n

/-- GetProcessTime from procmon.c lines 2848-2894 (non-null buffer, no
truncation), restricted to the non-negative runtimes the claim covers:
under a minute render seconds only; under an hour minutes and padded
seconds; under a day hours, padded minutes, padded seconds; otherwise
days, padded hours, padded minutes, padded seconds — each remainder
computed by repeated subtraction as in the C code. -/
def GetProcessTime (runtime : Nat) : String :=
  if runtime < 60 then toString runtime ++ "s"
  else if runtime < 3600 then
    let mins := runtime / 60
    let rt := runtime - mins * 60
    toString mins ++ "m" ++ pad2 rt ++ "s"
  else if runtime < 86400 then
    let hours := runtime / 3600
    let rt1 := runtime - hours * 3600
    let mins := rt1 / 60
    let rt2 := rt1 - mins * 60
    toString hours ++ "h" ++ pad2 mins ++ "m" ++ pad2 rt2 ++ "s"
  else
    let days := runtime / 86400
    let rt1 := runtime - days * 86400
    let hours := rt1 / 3600
    let rt2 := rt1 - hours * 3600
    let mins := rt2 / 60
    let rt3 := rt2 - mins * 60
    toString days ++ "d" ++ pad2 hours ++ "h" ++ pad2 mins ++ "m"
      ++ pad2 rt3 ++ "s"

/-- rendering of the Since value as the specification words it: the
euclidean decomposition of the total seconds into days, hours, minutes
and seconds, printed as d, hh, mm, ss with the shorter forms below a
day, an hour, and a minute. -/
def SpecProcessTime (t : Nat) : String :=
  let d := t / 86400
  let hh := t % 86400 / 3600
  let mm := t % 3600 / 60
  let ss := t % 60
  if t < 60 then toString ss ++ "s"
  else if t < 3600 then toString mm ++ "m" ++ pad2 ss ++ "s"
  else if t < 86400 then
    toString hh ++ "h" ++ pad2 mm ++ "m" ++ pad2 ss ++ "s"
  else
    toString d ++ "d" ++ pad2 hh ++ "h" ++ pad2 mm ++ "m" ++ pad2 ss ++ "s"

/-! Helper lemmas shared by the claim theorems. -/

/-- RunnableCheck yields EOK when every listed parent resolving to a
table entry is in state RUNNING. -/
theorem runnableCheck_eok (tbl : List Process) :
    ∀ l : List Nat,
      (∀ i ∈ l, ∀ par, tbl[i]? = some par → par.state = eRUNNING) →
      RunnableCheck tbl l = EOK := by
  intro l
  induction l with
  | nil => intro _; rfl
  | cons i rest ih =>
      intro h
      have hrest : ∀ j ∈ rest, ∀ par, tbl[j]? = some par →
          par.state = eRUNNING :=
        fun j hj => h j (List.mem_cons_of_mem _ hj)
      cases hg : tbl[i]? with
      | none => simp only [RunnableCheck, hg]; exact ih hrest
      | some par =>
          have hst : par.state = eRUNNING := h i (List.mem_cons_self i rest) par hg
          simp only [RunnableCheck, hg, hst, ne_eq, not_true_eq_false, ite_false,
            if_false]
          exact ih hrest

/-- the accumulator step of GetParentRuncount is exceeded by rc exactly
when rc is below the accumulator or below the runcount of the parent the
index resolves to. -/
theorem lt_runcountStep (tbl : List Process) (init i rc : Nat) :
    rc < RuncountStep tbl init i ↔
      rc < init ∨ ∃ par, tbl[i]? = some par ∧ rc < par.runcount := by
  cases hg : tbl[i]? with
  | none => simp [RuncountStep, hg]
  | some par =>
      simp only [RuncountStep, hg, Option.some.injEq]
      constructor
      · intro h
        by_cases hr : par.runcount > init
        · rw [if_pos hr] at h
          exact Or.inr ⟨par, rfl, h⟩
        · rw [if_neg hr] at h
          exact Or.inl h
      · rintro (h | ⟨par2, hp, h⟩)
        · by_cases hr : par.runcount > init
          · rw [if_pos hr]; omega
          · rw [if_neg hr]; exact h
        · cases hp
          by_cases hr : par.runcount > init
          · rw [if_pos hr]; exact h
          · rw [if_neg hr]; omega

/-- rc is below the GetParentRuncount fold iff it is below the initial
accumulator or below some listed parent runcount. -/
theorem lt_foldl_runcountStep (tbl : List Process) (rc : Nat) :
    ∀ (l : List Nat) (init : Nat),
      rc < List.foldl (RuncountStep tbl) init l ↔
        rc < init ∨
          ∃ i ∈ l, ∃ par, tbl[i]? = some par ∧ rc < par.runcount := by
  intro l
  induction l with
  | nil => intro init; simp
  | cons i rest ih =>
      intro init
      rw [List.foldl_cons, ih, lt_runcountStep]
      constructor
      · rintro ((h | ⟨par, hp, h⟩) | ⟨j, hj, par, hp, h⟩)
        · exact Or.inl h
        · exact Or.inr ⟨i, List.mem_cons_self i rest, par, hp, h⟩
        · exact Or.inr ⟨j, List.mem_cons_of_mem _ hj, par, hp, h⟩
      · rintro (h | ⟨j, hj, par, hp, h⟩)
        · exact Or.inl (Or.inl h)
        · rcases List.mem_cons.mp hj with rfl | hj2
          · exact Or.inl (Or.inr ⟨par, hp, h⟩)
          · exact Or.inr ⟨j, hj2, par, hp, h⟩

/-- rc is below GetParentRuncount iff some parent runcount exceeds rc. -/
theorem lt_getParentRuncount (tbl : List Process) (p : Process) (rc : Nat) :
    rc < GetParentRuncount tbl p ↔
      ∃ i ∈ p.parents, ∃ par, tbl[i]? = some par ∧ rc < par.runcount := by
  rw [GetParentRuncount, lt_foldl_runcountStep]
  simp

/-- every iteration of the MonitorThread loop begins with a lockfile
poll. -/
theorem monitorLoop_head (p : Process) (poll forkRes : Nat → Int)
    (fuel k : Nat) :
    ∃ evs, MonitorLoop p poll forkRes (Nat.succ fuel) k =
      MEvent.mPoll (poll k) :: evs := by
  by_cases h1 : poll k = (-2 : Int)
  · exact ⟨[MEvent.mRemoveLock], by simp [MonitorLoop, h1]⟩
  · by_cases h2 : poll k = (-1 : Int)
    · exact ⟨MEvent.mSleep 1 :: MonitorLoop p poll forkRes fuel (k + 1),
        by simp [MonitorLoop, h1, h2]⟩
    · by_cases h3 : (if poll k = 0 then forkRes k else poll k) = 0
      · exact ⟨(if poll k = 0 ∧ p.restart_delay ≠ 0 then
              [MEvent.mSleep p.restart_delay] else []) ++
            (if poll k = 0 then [MEvent.mFork] else []) ++ [MEvent.mExec],
          by simp [MonitorLoop, h1, h2, h3]⟩
      · by_cases h4 : p.monitored
        · exact ⟨((if poll k = 0 ∧ p.restart_delay ≠ 0 then
                [MEvent.mSleep p.restart_delay] else []) ++
              (if poll k = 0 then [MEvent.mFork] else []) ++
              [MEvent.mRestartDeps, MEvent.mUsleep 500000, MEvent.mMonitor,
               MEvent.mWaitpid]) ++ MonitorLoop p poll forkRes fuel (k + 1),
            by simp [MonitorLoop, h1, h2, h3, h4]⟩
        · exact ⟨(if poll k = 0 ∧ p.restart_delay ≠ 0 then
                [MEvent.mSleep p.restart_delay] else []) ++
              (if poll k = 0 then [MEvent.mFork] else []) ++
              [MEvent.mWaitpid, MEvent.mRestartDeps],
            by simp [MonitorLoop, h1, h2, h3, h4]⟩

/-- the invariant of the RestartDependents fold: from an EOK accumulator
the result component stays EOK. -/
theorem restartStep_foldl_eok (wait : Nat) (restartRc : Nat → Int) :
    ∀ (l : List Nat) (t : List Process),
      (List.foldl (RestartStep wait restartRc) (t, EOK) l).2 = EOK := by
  intro l
  induction l with
  | nil => intro t; rfl
  | cons ci rest ih =>
      intro t
      rw [List.foldl_cons]
      have hstep : ∃ t2, RestartStep wait restartRc (t, EOK) ci = (t2, EOK) := by
        cases hg : (t, EOK).1[ci]? with
        | none => exact ⟨t, by simp [RestartStep, hg]⟩
        | some c =>
            refine ⟨t.set ci (RestartDependent c wait (restartRc ci)).1, ?_⟩
            simp only [RestartStep, hg]
            by_cases hrc : (RestartDependent c wait (restartRc ci)).2 ≠ EOK
            · rw [if_pos hrc]
            · rw [if_neg hrc]
      obtain ⟨t2, hstep⟩ := hstep
      rw [hstep]
      exact ih t2

/-! Claim theorems. -/

/-- concrete directory listing holding the two supervisor lockfiles and
one ordinary lockfile. -/
def demoDir : List (List Char) :=
  ["procmon.procmon1".toList, "procmon.procmon2".toList,
   "procmon.foo".toList]

/-- C1: the claim states that the runnable predicate holds iff the
descriptor has not been launched yet and all parents are RUNNING, so
that a launched descriptor is never started again.  On the code this
fails: after the first sweep over demoTbl the process at index 1 has
been launched once (threads = 1, state RUNNING), yet Runnable still
returns EOK for it, and the full engine run launches it a second time
(threads = 2). -/
theorem claim_C1_runnable_ignores_launch :
    (demoMid[1]?).map Process.threads = some 1 ∧
    (demoMid[1]?).map Process.state = some eRUNNING ∧
    Runnable demoMid ((demoMid[1]?).getD defProc) = EOK ∧
    ((RunProcesses (fun _ => 0) 3 demoTbl)[1]?).map Process.threads =
      some 2 := by
  decide

/-- C2: the claim states that at most one monitor task exists per
descriptor at any time.  On the code this fails: running the start
engine on demoTbl calls InitProcess twice for the process at index 1,
creating two concurrent monitor threads for it. -/
theorem claim_C2_two_monitor_threads :
    1 < (((RunProcesses (fun _ => 0) 3 demoTbl)[1]?).getD defProc).threads := by
  decide

/-- C3: the claim states that shutdown-all issues terminate-and-delete
to both supervisor entries procmon1 and procmon2.  On the code this
fails: with both supervisor lockfiles present, the event trace carries
terminate-and-delete for procmon1 twice and never for procmon2 (only the
unlink reaches procmon2). -/
theorem claim_C3_shutdown_skips_procmon2 :
    ShutdownAllProcesses demoDir =
      [SEvent.sAbort ("foo".toList), SEvent.sSleep 1,
       SEvent.sAbort ("procmon1".toList), SEvent.sAbort ("procmon1".toList),
       SEvent.sSleep 1, SEvent.sRemove ("procmon1".toList),
       SEvent.sRemove ("procmon2".toList)] ∧
    SEvent.sAbort ("procmon2".toList) ∉ ShutdownAllProcesses demoDir := by
  constructor
  · decide
  · decide

/-- C9: a descriptor with skip set is transitioned to RUNNING by Run
without spawning a monitor thread, launching, or waiting (the returned
descriptor differs only in its state and the event trace is empty), and
any descriptor all of whose table-resolved parents are RUNNING satisfies
the runnable check. -/
theorem claim_C9_skip_becomes_running (tbl : List Process) (probe : Int)
    (p q : Process) (hs : p.skip = true) :
    Run tbl probe p = ({ p with state := eRUNNING }, []) ∧
    (Run tbl probe p).1.threads = p.threads ∧
    ((∀ i ∈ q.parents, ∀ par, tbl[i]? = some par → par.state = eRUNNING) →
       Runnable tbl q = EOK) := by
  have h1 : Run tbl probe p = ({ p with state := eRUNNING }, []) := by
    simp [Run, hs]
  exact ⟨h1, by rw [h1], fun h => runnableCheck_eok tbl q.parents h⟩

/-- concrete descriptor with skip set. -/
def skipP : Process := { defProc with skip := true }

/-- concrete one-process table whose single entry is RUNNING. -/
def runningTbl : List Process := [{ defProc with state := eRUNNING }]

/-- concrete descriptor depending on the entry at index 0. -/
def childQ : Process := { defProc with parents := [0] }

/-- C9 witness at a concrete skipped descriptor and dependent. -/
theorem claim_C9_skip_becomes_running_witness :
    skipP.skip = true ∧
    (Run runningTbl 0 skipP = ({ skipP with state := eRUNNING }, []) ∧
     (Run runningTbl 0 skipP).1.threads = skipP.threads ∧
     ((∀ i ∈ childQ.parents, ∀ par, runningTbl[i]? = some par →
         par.state = eRUNNING) →
        Runnable runningTbl childQ = EOK)) :=
  ⟨rfl, claim_C9_skip_becomes_running runningTbl 0 skipP childQ rfl⟩

/-- C10: RestartDependents on a non-null descriptor returns EOK whatever
result codes the per-dependent restarts produce: the code discards every
per-dependent error. -/
theorem claim_C10_restart_dependents_eok (tbl : List Process)
    (restartRc : Nat → Int) (p : Process) :
    (RestartDependents tbl restartRc (some p)).2 = EOK :=
  restartStep_foldl_eok p.wait restartRc p.children tbl

/-- C4: for a readable lockfile record with a positive stored pid, the
pid-status probe reports suspended (-1) iff the terminate field is
SUSPEND, aborted (-2) iff it is ABORT, and under any other terminate
value reports absent (0) iff the zero-signal probe fails with ESRCH and
otherwise reports running with the stored pid. -/
theorem claim_C4_pid_status (ld : LockData) (kill0 : Int → KillRes)
    (hpid : 0 < ld.pid) :
    (get_pid_from_lockfile ld kill0 = -1 ↔ ld.terminate = SUSPEND) ∧
    (get_pid_from_lockfile ld kill0 = -2 ↔ ld.terminate = ABORT) ∧
    (ld.terminate ≠ SUSPEND → ld.terminate ≠ ABORT →
       ((get_pid_from_lockfile ld kill0 = 0 ↔
           kill0 ld.pid = KillRes.err ESRCH) ∧
        (kill0 ld.pid ≠ KillRes.err ESRCH →
           get_pid_from_lockfile ld kill0 = ld.pid))) := by
  by_cases hS : ld.terminate = SUSPEND
  · have hA : ld.terminate ≠ ABORT := by rw [hS]; decide
    have hv : get_pid_from_lockfile ld kill0 = -1 := by
      simp [get_pid_from_lockfile, hS, SUSPEND, ABORT]
    refine ⟨by simp [hv, hS], by simp [hv, hA], fun hS2 _ => absurd hS hS2⟩
  · by_cases hA : ld.terminate = ABORT
    · have hv : get_pid_from_lockfile ld kill0 = -2 := by
        simp [get_pid_from_lockfile, hA, SUSPEND, ABORT]
      refine ⟨by simp [hv, hS], by simp [hv, hA], fun _ hA2 => absurd hA hA2⟩
    · cases hk : kill0 ld.pid with
      | ok =>
          have hv : get_pid_from_lockfile ld kill0 = ld.pid := by
            simp [get_pid_from_lockfile, hS, hA, hpid, hk]
          refine ⟨?_, ?_, fun _ _ => ⟨?_, fun _ => hv⟩⟩
          · rw [hv]
            constructor
            · intro he; omega
            · intro hSS; exact absurd hSS hS
          · rw [hv]
            constructor
            · intro he; omega
            · intro hAA; exact absurd hAA hA
          · rw [hv]
            constructor
            · intro h0; omega
            · intro hke; simp at hke
      | err e =>
          by_cases he : e = ESRCH
          · have hv : get_pid_from_lockfile ld kill0 = 0 := by
              simp [get_pid_from_lockfile, hS, hA, hpid, hk, he]
            refine ⟨?_, ?_, fun _ _ => ⟨?_, ?_⟩⟩
            · rw [hv]; simp [hS]
            · rw [hv]; simp [hA]
            · rw [hv]; simp [he]
            · intro hke; exact absurd (by rw [he]) hke
          · have hv : get_pid_from_lockfile ld kill0 = ld.pid := by
              simp [get_pid_from_lockfile, hS, hA, hpid, hk, he]
            refine ⟨?_, ?_, fun _ _ => ⟨?_, fun _ => hv⟩⟩
            · rw [hv]
              constructor
              · intro hx; omega
              · intro hSS; exact absurd hSS hS
            · rw [hv]
              constructor
              · intro hx; omega
              · intro hAA; exact absurd hAA hA
            · rw [hv]
              constructor
              · intro hx; omega
              · intro hke
                simp only [KillRes.err.injEq] at hke
                exact absurd hke he

/-- concrete lockfile record with a live pid and a normal terminate
word. -/
def ldW : LockData := ⟨5, 0, 1, 100⟩

/-- C4 witness at a concrete record whose zero-signal probe fails with
ESRCH. -/
theorem claim_C4_pid_status_witness :
    0 < ldW.pid ∧
    ((get_pid_from_lockfile ldW (fun _ => KillRes.err 3) = -1 ↔
        ldW.terminate = SUSPEND) ∧
     (get_pid_from_lockfile ldW (fun _ => KillRes.err 3) = -2 ↔
        ldW.terminate = ABORT) ∧
     (ldW.terminate ≠ SUSPEND → ldW.terminate ≠ ABORT →
        ((get_pid_from_lockfile ldW (fun _ => KillRes.err 3) = 0 ↔
            (fun _ : Int => KillRes.err 3) ldW.pid = KillRes.err ESRCH) ∧
         ((fun _ : Int => KillRes.err 3) ldW.pid ≠ KillRes.err ESRCH →
            get_pid_from_lockfile ldW (fun _ => KillRes.err 3) = ldW.pid)))) :=
  ⟨by decide, claim_C4_pid_status ldW (fun _ => KillRes.err 3) (by decide)⟩

/-- C5: a run-to-exit task (monitored false) whose runcount is at least
the largest parent runcount exits immediately — the monitor thread
produces no events at all, so the lockfile is never polled and nothing
is spawned; when the suppression condition fails the loop proceeds and
its first action is a lockfile poll; and the proceed condition, runcount
below the largest parent runcount, holds exactly when some parent has a
strictly larger runcount. -/
theorem claim_C5_run_to_exit_suppression (tbl : List Process) (p : Process)
    (poll forkRes : Nat → Int) (fuel : Nat) (hm : p.monitored = false) :
    (GetParentRuncount tbl p ≤ p.runcount →
       MonitorThreadEvents tbl p poll forkRes fuel = []) ∧
    (p.runcount < GetParentRuncount tbl p → 0 < fuel →
       ∃ evs, MonitorThreadEvents tbl p poll forkRes fuel =
         MEvent.mPoll (poll 0) :: evs) ∧
    (p.runcount < GetParentRuncount tbl p ↔
       ∃ i ∈ p.parents, ∃ par, tbl[i]? = some par ∧
         p.runcount < par.runcount) := by
  refine ⟨?_, ?_, lt_getParentRuncount tbl p p.runcount⟩
  · intro hle
    simp [MonitorThreadEvents, hm, hle]
  · intro hlt hf
    have hcond : ¬(p.monitored = false ∧ GetParentRuncount tbl p ≤ p.runcount) := by
      rintro ⟨_, hle⟩
      omega
    rw [MonitorThreadEvents, if_neg hcond]
    obtain ⟨f, rfl⟩ : ∃ f, fuel = Nat.succ f := ⟨fuel - 1, by omega⟩
    exact monitorLoop_head p poll forkRes f 0

/-- concrete one-process table whose single entry has been restarted
once. -/
def rtParentTbl : List Process := [{ defProc with runcount := 1 }]

/-- concrete run-to-exit task depending on the entry at index 0 and
never yet run. -/
def rtTask : Process := { defProc with monitored := false, parents := [0] }

/-- C5 witness at a concrete run-to-exit task. -/
theorem claim_C5_run_to_exit_suppression_witness :
    rtTask.monitored = false ∧
    ((GetParentRuncount rtParentTbl rtTask ≤ rtTask.runcount →
        MonitorThreadEvents rtParentTbl rtTask (fun _ => 0) (fun _ => 7) 1 = []) ∧
     (rtTask.runcount < GetParentRuncount rtParentTbl rtTask → 0 < 1 →
        ∃ evs, MonitorThreadEvents rtParentTbl rtTask (fun _ => 0) (fun _ => 7) 1 =
          MEvent.mPoll ((fun _ : Nat => (0 : Int)) 0) :: evs) ∧
     (rtTask.runcount < GetParentRuncount rtParentTbl rtTask ↔
        ∃ i ∈ rtTask.parents, ∃ par, rtParentTbl[i]? = some par ∧
          rtTask.runcount < par.runcount)) :=
  ⟨rfl, claim_C5_run_to_exit_suppression rtParentTbl rtTask
    (fun _ => 0) (fun _ => 7) 1 rfl⟩

/-- C6: the terminate operation is idempotent on the observable
post-state: with the lockfile present, after one terminate and after two
in a row the observables are the same — terminate field SUSPEND and the
target process dead. -/
theorem claim_C6_terminate_idempotent (s : KState) (ld : LockData)
    (now now2 : Nat) (h : s.file = some ld) :
    termObs (terminate now s).1 = (some SUSPEND, false) ∧
    termObs (terminate now2 (terminate now s).1).1 = (some SUSPEND, false) := by
  have h1 : (terminate now s).1 =
      ⟨some { ld with terminate := SUSPEND, starttime := now }, false⟩ := by
    simp [terminate, terminate_command, h]
  exact ⟨by rw [h1]; rfl, by rw [h1]; rfl⟩

/-- concrete control-plane state with a present lockfile and a live
process. -/
def ksW : KState := ⟨some ldW, true⟩

/-- C6 witness at a concrete state. -/
theorem claim_C6_terminate_idempotent_witness :
    ksW.file = some ldW ∧
    (termObs (terminate 7 ksW).1 = (some SUSPEND, false) ∧
     termObs (terminate 9 (terminate 7 ksW).1).1 = (some SUSPEND, false)) :=
  ⟨rfl, claim_C6_terminate_idempotent ksW ldW 7 9 rfl⟩

/-- the event trace of an open_lockfile run all of whose attempts fail:
each numbered attempt followed by the 100 ms sleep. -/
def failTrace : Nat → Nat → List OEvent
  | 0, _ => []
  | Nat.succ n, t => OEvent.oOpen t :: OEvent.oSleep100 :: failTrace n (t + 1)

/-- prepending an open attempt raises the open count by one. -/
theorem countOpens_cons_open (t : Nat) (l : List OEvent) :
    countOpens (OEvent.oOpen t :: l) = countOpens l + 1 := by
  simp [countOpens, List.countP_cons]

/-- prepending a sleep leaves the open count unchanged. -/
theorem countOpens_cons_sleep (l : List OEvent) :
    countOpens (OEvent.oSleep100 :: l) = countOpens l := by
  simp [countOpens, List.countP_cons]

/-- the open_lockfile loop makes at most as many open attempts as its
remaining-iterations bound. -/
theorem open_loop_count (openf : Nat → Option Nat) :
    ∀ n t : Nat, countOpens (open_loop openf n t).2 ≤ n := by
  intro n
  induction n with
  | zero => intro t; simp [open_loop, countOpens]
  | succ n ih =>
      intro t
      cases h : openf t with
      | some fd =>
          simp [open_loop, countOpens, h, List.countP_cons]
      | none =>
          have hr := ih (t + 1)
          simp only [open_loop, h]
          rw [countOpens_cons_open, countOpens_cons_sleep]
          omega

/-- when every attempt the loop can reach fails, the loop returns none
and its trace is the full failure trace. -/
theorem open_loop_all_fail (openf : Nat → Option Nat) :
    ∀ n t : Nat, (∀ i, i < n → openf (t + i) = none) →
      (open_loop openf n t).1 = none ∧
      (open_loop openf n t).2 = failTrace n t := by
  intro n
  induction n with
  | zero => intro t _; exact ⟨rfl, rfl⟩
  | succ n ih =>
      intro t h
      have h0 : openf t = none := by simpa using h 0 (Nat.succ_pos n)
      have hrest : ∀ i, i < n → openf (t + 1 + i) = none := by
        intro i hi
        have hx := h (i + 1) (by omega)
        have e : t + (i + 1) = t + 1 + i := by omega
        rw [e] at hx
        exact hx
      obtain ⟨ih1, ih2⟩ := ih (t + 1) hrest
      refine ⟨?_, ?_⟩
      · simp [open_loop, h0, ih1]
      · simp [open_loop, h0, ih2, failTrace]

/-- C7: opening a lockfile attempts the open at most 5 times, and when
all 5 attempts fail it returns not-found with a trace of exactly 5
numbered attempts, each followed by a 100 ms sleep — in particular the
operation always terminates after at most 5 retries. -/
theorem claim_C7_open_lockfile_retries (openf : Nat → Option Nat) :
    countOpens (open_lockfile openf).2 ≤ 5 ∧
    ((∀ i, i < 5 → openf i = none) →
       (open_lockfile openf).1 = none ∧
       (open_lockfile openf).2 =
         [OEvent.oOpen 0, OEvent.oSleep100, OEvent.oOpen 1, OEvent.oSleep100,
          OEvent.oOpen 2, OEvent.oSleep100, OEvent.oOpen 3, OEvent.oSleep100,
          OEvent.oOpen 4, OEvent.oSleep100]) := by
  constructor
  · exact open_loop_count openf 5 0
  · intro h
    have hh : ∀ i, i < 5 → openf (0 + i) = none := by
      intro i hi
      simpa using h i hi
    obtain ⟨h1, h2⟩ := open_loop_all_fail openf 5 0 hh
    have h3 : (open_lockfile openf).2 = failTrace 5 0 := h2
    exact ⟨h1, by rw [h3]; decide⟩

/-- C7 witness with every open attempt failing. -/
theorem claim_C7_open_lockfile_retries_witness :
    countOpens (open_lockfile (fun _ => none)).2 ≤ 5 ∧
    ((open_lockfile (fun _ => (none : Option Nat))).1 = none ∧
     (open_lockfile (fun _ => (none : Option Nat))).2 =
       [OEvent.oOpen 0, OEvent.oSleep100, OEvent.oOpen 1, OEvent.oSleep100,
        OEvent.oOpen 2, OEvent.oSleep100, OEvent.oOpen 3, OEvent.oSleep100,
        OEvent.oOpen 4, OEvent.oSleep100]) :=
  ⟨(claim_C7_open_lockfile_retries (fun _ => none)).1,
   (claim_C7_open_lockfile_retries (fun _ => none)).2 (fun _ _ => rfl)⟩

/-- C8: GetProcessTime renders every non-negative runtime exactly as the
euclidean decomposition into days, hours, minutes and seconds, with the
shorter forms below a day, an hour, and a minute. -/
theorem claim_C8_process_time (t : Nat) :
    GetProcessTime t = SpecProcessTime t := by
  by_cases h1 : t < 60
  · have e1 : t % 60 = t := Nat.mod_eq_of_lt h1
    simp [GetProcessTime, SpecProcessTime, h1, e1]
  · by_cases h2 : t < 3600
    · have e1 : t - t / 60 * 60 = t % 60 := by omega
      have e2 : t / 60 = t % 3600 / 60 := by omega
      simp only [GetProcessTime, SpecProcessTime, h1, h2, if_true, if_false]
      rw [e1, e2]
    · by_cases h3 : t < 86400
      · have e1 : t - t / 3600 * 3600 = t % 3600 := by omega
        have e2 : t % 3600 - t % 3600 / 60 * 60 = t % 60 := by omega
        have e3 : t / 3600 = t % 86400 / 3600 := by omega
        simp only [GetProcessTime, SpecProcessTime, h1, h2, h3, if_true,
          if_false]
        rw [e1, e2, e3]
      · have e1 : t - t / 86400 * 86400 = t % 86400 := by omega
        have e2 : t % 86400 - t % 86400 / 3600 * 3600 = t % 3600 := by omega
        have e3 : t % 3600 - t % 3600 / 60 * 60 = t % 60 := by omega
        simp only [GetProcessTime, SpecProcessTime, h1, h2, h3, if_true,
          if_false]
        rw [e1, e2, e3]

end Procmon
